import Mathlib

/-!
Shallow embedding of src/bindings/python/cntk/io/h5reader.py (class H5DataSource).

Modelling conventions:
* An HDF5 record is a flat row-major block of values, modelled as a List Int
  (values themselves are opaque to the minibatch logic).
* A dataset (one named array) carries its records, the shape of one record with
  the leading axis dropped (dataset.shape[1:]), its native dtype tag, and the
  h5py attribute dictionary entries the reader consults.
* Python dict iteration over the datagroup is insertion ordered, so the
  datagroup is an association list.
* Fallible operations (missing attribute lookups, out-of-range reads,
  np.reshape size mismatches) are modelled with Option / Except.
* The while loop of next_minibatch is modelled with explicit fuel; the
  LoopRes.outOfFuel result means the loop did not finish within the given
  number of iterations, so non-termination is (∀ fuel, result = outOfFuel).
* The result dictionary of next_minibatch is keyed by stream name; in the
  source it is keyed by the StreamInformation object, which is in bijection
  with the name (names are the dict keys of stream_info_mapping).
* Value.create and the device argument are external collaborators: the data
  handed to Value.create is kept as-is in the batch descriptor.
-/

namespace H5Reader

/-- The attrs entry for the element shape: h5py stores either a scalar or an
array; the reader wraps a scalar into a one-element array (lines 98-99 and
110-111 of the source). -/
inductive AttrShape where
  | scalar : Nat → AttrShape
  | arr : List Nat → AttrShape
deriving DecidableEq

/-- The attribute dictionary entries consulted by the reader; a missing key
is None here and a KeyError in Python. -/
structure Attrs where
  is_seq : Option Bool
  shape : Option AttrShape
  dtype : Option String
deriving DecidableEq

/-- One named array of the datagroup. -/
structure Dataset where
  records : List (List Int)
  shape_tail : List Nat
  native_dtype : String
  attrs : Attrs
deriving DecidableEq

/-- Line 74 and 107 and 159: is_seq holds when the attribute is present and
truthy. -/
def isSeq (d : Dataset) : Bool :=
  d.attrs.is_seq.getD false

/-- np.array([dshape]) normalisation of a scalar shape attribute followed by
tolist (lines 98-100). -/
def normShape : AttrShape → List Nat
  | AttrShape.scalar n => [n]
  | AttrShape.arr l => l

/-- np.prod of the normalised element shape (elm_size, lines 112 and 164). -/
def prodShape (sh : AttrShape) : Nat :=
  (normShape sh).prod

/-- StreamInformation as constructed at line 86. -/
structure StreamInformation where
  name : String
  ordinal : Nat
  storage_format : String
  dtype : String
  dshape : List Nat
deriving DecidableEq

/-- Errors the constructor can raise: schemaError models the KeyError raised
by reading a missing shape or dtype attribute of a declared sequence dataset
(the SchemaError of the specification); nameError models the Python NameError
raised at line 91 when the datagroup is empty and num_data_points was never
assigned. -/
inductive InitError where
  | schemaError
  | nameError
deriving DecidableEq

/-- dataset_shape_ (lines 96-101): reads attrs of the key shape, normalises a
scalar to a one-element list; None models the KeyError on a missing key. -/
def dataset_shape_ (d : Dataset) : Option (List Nat) :=
  (d.attrs.shape).map normShape

/-- The per-dataset body of the constructor loop (lines 70-87), building one
StreamInformation per named array; the ordinal is the enumeration index. -/
def buildStreamInfos : Nat → List (String × Dataset) →
    Except InitError (List (String × StreamInformation))
  | _, [] => Except.ok []
  | i, (name, d) :: rest =>
    if isSeq d then
      match dataset_shape_ d, d.attrs.dtype with
      | some dshape, some dt =>
        match buildStreamInfos (i + 1) rest with
        | Except.ok infos =>
          Except.ok ((name, ⟨name, i, "dense", dt, dshape⟩) :: infos)
        | Except.error err => Except.error err
      | _, _ => Except.error InitError.schemaError
    else
      match buildStreamInfos (i + 1) rest with
      | Except.ok infos =>
        Except.ok ((name, ⟨name, i, "dense", d.native_dtype, d.shape_tail⟩) :: infos)
      | Except.error err => Except.error err

/-- The mutable state of one H5DataSource instance after construction. -/
structure Source where
  datagroup : List (String × Dataset)
  stream_info_mapping : List (String × StreamInformation)
  num_data_points : Nat
  next_idx : Nat
deriving DecidableEq

/-- The constructor (lines 66-94): builds the catalog, takes num_data_points
from the last dataset of the loop (the variable is reassigned every
iteration), and starts the cursor at 0. -/
def H5DataSource.init (dg : List (String × Dataset)) : Except InitError Source :=
  match buildStreamInfos 0 dg with
  | Except.error err => Except.error err
  | Except.ok infos =>
    match dg.getLast? with
    | none => Except.error InitError.nameError
    | some (_, d) => Except.ok ⟨dg, infos, d.records.length, 0⟩

/-- sample_count_ (lines 106-117): for a sequence dataset the length of the
flat block of the record divided (floor) by the element size; 1 otherwise.
None models the KeyError on a missing shape attribute and the h5py error on an
out-of-range record index. -/
def sample_count_ (d : Dataset) (data_idx : Nat) : Option Nat :=
  if isSeq d then
    match d.attrs.shape with
    | none => none
    | some sh =>
      match d.records.get? data_idx with
      | none => none
      | some block => some (block.length / prodShape sh)
  else
    some 1

/-- The fold of max_seq_len_ (lines 119-125) over the datagroup, starting
from mx_len = 0. -/
def maxLenFold (idx : Nat) : List (String × Dataset) → Nat → Option Nat
  | [], mx => some mx
  | (_, d) :: rest, mx =>
    match sample_count_ d idx with
    | none => none
    | some c => maxLenFold idx rest (max mx c)

/-- max_seq_len_ (lines 119-125): maximum over all streams of the sample
count of the record at idx. -/
def max_seq_len_ (src : Source) (idx : Nat) : Option Nat :=
  maxLenFold idx src.datagroup 0

/-- Outcome of the record-selection while loop (lines 137-143). outOfFuel
models an execution that has not finished within the fuel bound; keyError
models an exception from max_seq_len_; done carries end, sample_count and
num_seq at loop exit. -/
inductive LoopRes where
  | outOfFuel
  | keyError
  | done (e : Nat) (sc : Int) (ns : Nat)
deriving DecidableEq

/-- The while loop of next_minibatch (lines 137-143): while
sample_count < num_samples_in_batch, add the max per-stream sample count of
the record at end, count it, advance end modulo num_data_points, and break
early once sample_count > num_samples_in_batch. -/
def selectLoop (src : Source) (n : Int) : Nat → Nat → Int → Nat → LoopRes
  | 0, _, _, _ => LoopRes.outOfFuel
  | fuel + 1, e, sc, ns =>
    if sc < n then
      match max_seq_len_ src e with
      | none => LoopRes.keyError
      | some m =>
        if n < sc + (m : Int) then
          LoopRes.done ((e + 1) % src.num_data_points) (sc + (m : Int)) (ns + 1)
        else
          selectLoop src n fuel ((e + 1) % src.num_data_points) (sc + (m : Int)) (ns + 1)
    else LoopRes.done e sc ns

/-- The per-stream slice of lines 153-157. Python slicing dataset[a:b] is
(records.take b).drop a; the wrapped branch concatenates
dataset[start:num_data_points] and dataset[0:end]. -/
def extractData (d : Dataset) (N start e : Nat) (swe : Bool) : List (List Int) :=
  if swe then (d.records.take N).drop start ++ d.records.take e
  else (d.records.take e).drop start

/-- np.reshape of a flat block to [seq_len] + elm_shape, viewed row-major:
seq_len rows, each the next elm_size-long slice of the block. -/
def chunksN (es : Nat) : Nat → List Int → List (List Int)
  | 0, _ => []
  | k + 1, b => b.take es :: chunksN es k (b.drop es)

/-- np.reshape (line 175): succeeds only when the flat size matches the
product of the target shape, then yields the row-major rows. -/
def npReshape (seq_len es : Nat) (b : List Int) : Option (List (List Int)) :=
  if b.length = seq_len * es then some (chunksN es seq_len b) else none

/-- The reshape loop over the extracted records of a sequence stream
(lines 167-176), also accumulating sample_count as the sum of the per-record
seq_len values. -/
def reshapeAll (es : Nat) : List (List Int) → Option (List (List (List Int)) × Nat)
  | [] => some ([], 0)
  | b :: rest =>
    let seq_len := b.length / es
    match npReshape seq_len es b, reshapeAll es rest with
    | some r, some (rs, sc) => some (r :: rs, seq_len + sc)
    | _, _ => none

/-- The data handed to Value.create: the reshaped per-record sequences for a
sequence stream, the raw extracted records for a dense stream. -/
inductive BatchData where
  | seqData (elems : List (List (List Int)))
  | dense (recs : List (List Int))
deriving DecidableEq

/-- MinibatchData as constructed at line 185. -/
structure MinibatchData where
  data : BatchData
  num_seq : Nat
  sample_count : Nat
  sweep_end : Bool
deriving DecidableEq

/-- The body of the result loop for one stream (lines 149-186): extract the
selected range, and either reshape it (sequence stream, sample_count the sum
of seq_len) or pass it through (dense stream, sample_count = num_seq). -/
def streamBatch (d : Dataset) (N start e : Nat) (swe : Bool) (ns : Nat) :
    Option MinibatchData :=
  let data := extractData d N start e swe
  if isSeq d then
    match d.attrs.shape with
    | none => none
    | some sh =>
      match reshapeAll (prodShape sh) data with
      | none => none
      | some (res, sc) => some ⟨BatchData.seqData res, ns, sc, swe⟩
  else
    some ⟨BatchData.dense data, ns, ns, swe⟩

/-- The result loop of next_minibatch over all streams (lines 148-186),
keyed by stream name. -/
def assembleAll (N start e : Nat) (swe : Bool) (ns : Nat) :
    List (String × Dataset) → Option (List (String × MinibatchData))
  | [] => some []
  | (name, d) :: rest =>
    match streamBatch d N start e swe ns, assembleAll N start e swe ns rest with
    | some mb, some tail => some ((name, mb) :: tail)
    | _, _ => none

/-- Replace the cursor (the assignment self.next_idx = end at line 144). -/
def setNextIdx (src : Source) (e : Nat) : Source :=
  ⟨src.datagroup, src.stream_info_mapping, src.num_data_points, e⟩

/-- next_minibatch (lines 127-187). number_of_workers and worker_rank are
accepted and unused, as in the source. The loop runs with explicit fuel; a
call that would not terminate (or that raises inside the loop or the result
loop) yields none. Note the cursor write (line 144) precedes the result loop,
so on a result-loop failure the Python object keeps the advanced cursor while
the call raises; the none result of this model carries no state. -/
def next_minibatch (src : Source) (fuel : Nat) (num_samples_in_batch : Int)
    (number_of_workers : Nat) (worker_rank : Nat) :
    Option (List (String × MinibatchData) × Source) :=
  let start := src.next_idx
  match selectLoop src num_samples_in_batch fuel start 0 0 with
  | LoopRes.outOfFuel => none
  | LoopRes.keyError => none
  | LoopRes.done e _sc ns =>
    let sweep_end := if e > start then false else true
    match assembleAll src.num_data_points start e sweep_end ns src.datagroup with
    | none => none
    | some pairs => some (pairs, setNextIdx src e)

/-- Accumulated max-per-stream sample count of the first k records walked
from start (wrapping modulo num_data_points), mirroring the additions the
loop performs. -/
def totUpTo (src : Source) (start : Nat) : Nat → Option Int
  | 0 => some 0
  | k + 1 =>
    match totUpTo src start k, max_seq_len_ src ((start + k) % src.num_data_points) with
    | some t, some m => some (t + (m : Int))
    | _, _ => none

/-- Claim C1 as stated: every finished selection ends with the accumulated
total strictly above the requested budget. -/
def stopsStrictlyOver (src : Source) (n : Int) (fuel : Nat) : Prop :=
  ∀ e sc ns, selectLoop src n fuel src.next_idx 0 0 = LoopRes.done e sc ns → n < sc

/-- A dense two-record stream: max contribution 1 per record. -/
def dsDense : Dataset :=
  ⟨[[0], [1]], [1], "f4", ⟨none, none, none⟩⟩

/-- Source with the single dense stream dsDense, cursor 0. -/
def exSrcDense : Source :=
  ⟨[("x", dsDense)], [("x", ⟨"x", 0, "dense", "f4", [1]⟩)], 2, 0⟩

/-- A sequence stream whose single record is an empty block: its sample
count is 0, so the selection loop can never make progress on it. -/
def dsZero : Dataset :=
  ⟨[[]], [], "f4", ⟨some true, some (AttrShape.arr [1]), some "f4"⟩⟩

/-- Source with the single zero-contribution stream dsZero. -/
def exSrcZero : Source :=
  ⟨[("z", dsZero)], [("z", ⟨"z", 0, "dense", "f4", [1]⟩)], 1, 0⟩

/-- A sequence stream with per-record seq lengths 1, 2, 1 (element size 1). -/
def dsSeqMix : Dataset :=
  ⟨[[10], [20, 21], [30]], [], "f4", ⟨some true, some (AttrShape.arr [1]), some "f4"⟩⟩

/-- A dense three-record label stream. -/
def dsLab : Dataset :=
  ⟨[[0], [1], [2]], [1], "f4", ⟨none, none, none⟩⟩

/-- Source with one sequence stream and one dense stream over three records. -/
def exSrcMix : Source :=
  ⟨[("s", dsSeqMix), ("l", dsLab)],
   [("s", ⟨"s", 0, "dense", "f4", [1]⟩), ("l", ⟨"l", 1, "dense", "f4", [1]⟩)], 3, 0⟩

/-- A sequence dataset whose single record has a flat block of 5 values with
a declared element size of 2: 5 is not a multiple of 2. -/
def dsBad : Dataset :=
  ⟨[[1, 2, 3, 4, 5]], [], "f4", ⟨some true, some (AttrShape.arr [2]), some "f4"⟩⟩

/-- A declared sequence dataset missing the shape attribute. -/
def dsNoShape : Dataset :=
  ⟨[[1]], [], "f4", ⟨some true, none, some "f4"⟩⟩

/-- A dense three-record stream with cursor 1, for the zero-request claim. -/
def exSrcDense3 : Source :=
  ⟨[("y", dsLab)], [("y", ⟨"y", 0, "dense", "f4", [1]⟩)], 3, 1⟩

/-- Flat block of 6 values for the reshape round-trip witness. -/
def bSix : List Int := [1, 2, 3, 4, 5, 6]

/-- The expected result pairs of next_minibatch on exSrcMix with budget 2. -/
def pairsMix : List (String × MinibatchData) :=
  [("s", ⟨BatchData.seqData [[[10]], [[20], [21]]], 2, 3, false⟩),
   ("l", ⟨BatchData.dense [[0], [1]], 2, 2, false⟩)]

/-- The expected result pairs of next_minibatch on exSrcDense with budget 2. -/
def pairsDense2 : List (String × MinibatchData) :=
  [("x", ⟨BatchData.dense [[0], [1]], 2, 2, true⟩)]

/-- Characterisation of every finished run of the selection loop, stated from
an arbitrary intermediate state: k records already consumed, running total t.
The loop finishes with the accumulated totals of totUpTo, the pointer moved
ns2 positions from start, a final total at least n, and every strictly
earlier total below n. -/
theorem selectLoop_spec (src : Source) (n : Int) (start : Nat) :
    ∀ (fuel k : Nat) (t : Int) (e2 : Nat) (sc2 : Int) (ns2 : Nat),
      totUpTo src start k = some t →
      selectLoop src n fuel ((start + k) % src.num_data_points) t k
        = LoopRes.done e2 sc2 ns2 →
      totUpTo src start ns2 = some sc2 ∧
      e2 = (start + ns2) % src.num_data_points ∧
      n ≤ sc2 ∧ k ≤ ns2 ∧
      ∀ j, k ≤ j → j < ns2 →
        ∃ tj, totUpTo src start j = some tj ∧ tj < n := by
  intro fuel
  induction fuel with
  | zero =>
    intro k t e2 sc2 ns2 ht h
    simp [selectLoop] at h
  | succ fuel ih =>
    intro k t e2 sc2 ns2 ht h
    rw [selectLoop] at h
    by_cases hlt : t < n
    · rw [if_pos hlt] at h
      cases hm : max_seq_len_ src ((start + k) % src.num_data_points) with
      | none => simp only [hm] at h; exact LoopRes.noConfusion h
      | some m =>
        simp only [hm] at h
        have htot2 : totUpTo src start (k + 1) = some (t + (m : Int)) := by
          simp [totUpTo, ht, hm]
        have hmod : ((start + k) % src.num_data_points + 1) % src.num_data_points
            = (start + (k + 1)) % src.num_data_points := by
          rw [Nat.mod_add_mod, Nat.add_assoc]
        by_cases hbr : n < t + (m : Int)
        · rw [if_pos hbr] at h
          simp only [LoopRes.done.injEq] at h
          obtain ⟨he, hsc, hns⟩ := h
          subst hsc; subst hns
          refine ⟨htot2, ?_, le_of_lt hbr, Nat.le_succ k, ?_⟩
          · rw [← he, hmod]
          · intro j hj1 hj2
            have hjk : j = k := by omega
            subst hjk
            exact ⟨t, ht, hlt⟩
        · rw [if_neg hbr, hmod] at h
          obtain ⟨h1, h2, h3, h4, h5⟩ := ih (k + 1) (t + (m : Int)) e2 sc2 ns2 htot2 h
          refine ⟨h1, h2, h3, by omega, ?_⟩
          intro j hj1 hj2
          rcases Nat.eq_or_lt_of_le hj1 with heq | hlt2
          · subst heq
            exact ⟨t, ht, hlt⟩
          · exact h5 j hlt2 hj2
    · rw [if_neg hlt] at h
      simp only [LoopRes.done.injEq] at h
      obtain ⟨he, hsc, hns⟩ := h
      subst hsc; subst hns
      exact ⟨ht, he.symm, le_of_not_lt hlt, Nat.le_refl k, fun j hj1 hj2 => by omega⟩

/-- selectLoop_spec specialised to the initial loop state of next_minibatch:
pointer at the cursor, running total 0, record counter 0. -/
theorem selectLoop_init_spec (src : Source) (n : Int) (fuel : Nat)
    (hstart : src.next_idx < src.num_data_points)
    (e2 : Nat) (sc2 : Int) (ns2 : Nat)
    (h : selectLoop src n fuel src.next_idx 0 0 = LoopRes.done e2 sc2 ns2) :
    totUpTo src src.next_idx ns2 = some sc2 ∧
    e2 = (src.next_idx + ns2) % src.num_data_points ∧
    n ≤ sc2 ∧
    ∀ j, j < ns2 →
      ∃ tj, totUpTo src src.next_idx j = some tj ∧ tj < n := by
  have h0 : (src.next_idx + 0) % src.num_data_points = src.next_idx := by
    rw [Nat.add_zero, Nat.mod_eq_of_lt hstart]
  have hmain := selectLoop_spec src n src.next_idx fuel 0 0 e2 sc2 ns2 rfl
    (by rw [h0]; exact h)
  exact ⟨hmain.1, hmain.2.1, hmain.2.2.1,
    fun j hj => hmain.2.2.2.2 j (Nat.zero_le j) hj⟩

/-- Sample counts in the loop are monotone: a finished loop never decreases
the record counter. -/
theorem selectLoop_ns_mono (src : Source) (n : Int) :
    ∀ (fuel : Nat) (e : Nat) (sc : Int) (ns e2 : Nat) (sc2 : Int) (ns2 : Nat),
      selectLoop src n fuel e sc ns = LoopRes.done e2 sc2 ns2 → ns ≤ ns2 := by
  intro fuel
  induction fuel with
  | zero =>
    intro e sc ns e2 sc2 ns2 h
    simp [selectLoop] at h
  | succ fuel ih =>
    intro e sc ns e2 sc2 ns2 h
    rw [selectLoop] at h
    by_cases hlt : sc < n
    · rw [if_pos hlt] at h
      cases hm : max_seq_len_ src e with
      | none => simp only [hm] at h; exact LoopRes.noConfusion h
      | some m =>
        simp only [hm] at h
        by_cases hbr : n < sc + (m : Int)
        · rw [if_pos hbr] at h
          simp only [LoopRes.done.injEq] at h
          omega
        · rw [if_neg hbr] at h
          have := ih _ _ _ _ _ _ h
          omega
    · rw [if_neg hlt] at h
      simp only [LoopRes.done.injEq] at h
      omega

/-- When every record in range has a max-per-stream sample count of at least
one, the loop finishes within (n - sc).toNat + 1 iterations. -/
theorem selectLoop_terminates (src : Source) (n : Int)
    (hpos : ∀ i, i < src.num_data_points → 1 ≤ (max_seq_len_ src i).getD 0) :
    ∀ (fuel : Nat) (e : Nat) (sc : Int) (ns : Nat),
      e < src.num_data_points → (n - sc).toNat < fuel →
      ∃ e2 sc2 ns2, selectLoop src n fuel e sc ns = LoopRes.done e2 sc2 ns2 := by
  intro fuel
  induction fuel with
  | zero =>
    intro e sc ns he hf
    exact absurd hf (Nat.not_lt_zero _)
  | succ fuel ih =>
    intro e sc ns he hf
    rw [selectLoop]
    by_cases hlt : sc < n
    · rw [if_pos hlt]
      have hm1 := hpos e he
      cases hm : max_seq_len_ src e with
      | none => rw [hm] at hm1; simp at hm1
      | some m =>
        rw [hm] at hm1
        simp only [Option.getD_some] at hm1
        simp only [hm]
        by_cases hbr : n < sc + (m : Int)
        · rw [if_pos hbr]
          exact ⟨_, _, _, rfl⟩
        · rw [if_neg hbr]
          exact ih _ _ _ (Nat.mod_lt _ (by omega)) (by omega)
    · rw [if_neg hlt]
      exact ⟨_, _, _, rfl⟩

/-- When every record in range contributes zero samples and the budget is
still ahead, the loop makes no progress: it runs out of any amount of fuel. -/
theorem selectLoop_stuck (src : Source) (n : Int)
    (hzero : ∀ i, i < src.num_data_points → max_seq_len_ src i = some 0) :
    ∀ (fuel : Nat) (e : Nat) (sc : Int) (ns : Nat),
      e < src.num_data_points → sc < n →
      selectLoop src n fuel e sc ns = LoopRes.outOfFuel := by
  intro fuel
  induction fuel with
  | zero =>
    intro e sc ns he hsc
    rfl
  | succ fuel ih =>
    intro e sc ns he hsc
    rw [selectLoop, if_pos hsc]
    simp only [hzero e he]
    have hnb : ¬ n < sc + ((0 : Nat) : Int) := by omega
    rw [if_neg hnb]
    exact ih _ _ _ (Nat.mod_lt _ (by omega)) (by omega)

/-- Unfolding streamBatch: the descriptor carries the shared num_seq and
sweep_end, and its data and sample count come from the extracted range of
this stream (reshaped for a sequence stream, raw for a dense one). -/
theorem streamBatch_spec (d : Dataset) (N start e : Nat) (swe : Bool) (ns : Nat)
    (mb : MinibatchData) (h : streamBatch d N start e swe ns = some mb) :
    mb.num_seq = ns ∧ mb.sweep_end = swe ∧
    (isSeq d = true →
      ∃ sh res, d.attrs.shape = some sh ∧
        reshapeAll (prodShape sh) (extractData d N start e swe)
          = some (res, mb.sample_count) ∧
        mb.data = BatchData.seqData res) ∧
    (isSeq d = false →
      mb.data = BatchData.dense (extractData d N start e swe) ∧
      mb.sample_count = ns) := by
  simp only [streamBatch] at h
  by_cases hseq : isSeq d = true
  · rw [if_pos hseq] at h
    cases hsh : d.attrs.shape with
    | none => simp only [hsh] at h; exact Option.noConfusion h
    | some sh =>
      simp only [hsh] at h
      cases hr : reshapeAll (prodShape sh) (extractData d N start e swe) with
      | none => simp only [hr] at h; exact Option.noConfusion h
      | some p =>
        obtain ⟨res, sc⟩ := p
        simp only [hr, Option.some.injEq] at h
        subst h
        exact ⟨rfl, rfl, fun _ => ⟨sh, res, rfl, hr, rfl⟩,
          fun hf => absurd hseq (by simp [hf])⟩
  · rw [if_neg hseq] at h
    simp only [Option.some.injEq] at h
    subst h
    exact ⟨rfl, rfl, fun ht => absurd ht hseq, fun _ => ⟨rfl, rfl⟩⟩

/-- Unfolding assembleAll: the result list pairs up, position by position,
with the datagroup, each descriptor produced by streamBatch on the
corresponding dataset with the same shared arguments. -/
theorem assembleAll_spec (N start e : Nat) (swe : Bool) (ns : Nat) :
    ∀ (dg : List (String × Dataset)) (pairs : List (String × MinibatchData)),
      assembleAll N start e swe ns dg = some pairs →
      pairs.length = dg.length ∧
      ∀ i (hd : i < dg.length) (hp : i < pairs.length),
        (pairs.get ⟨i, hp⟩).1 = (dg.get ⟨i, hd⟩).1 ∧
        streamBatch (dg.get ⟨i, hd⟩).2 N start e swe ns
          = some (pairs.get ⟨i, hp⟩).2 := by
  intro dg
  induction dg with
  | nil =>
    intro pairs h
    simp only [assembleAll, Option.some.injEq] at h
    subst h
    exact ⟨rfl, fun i hd hp => absurd hd (Nat.not_lt_zero i)⟩
  | cons hd rest ih =>
    obtain ⟨name1, d1⟩ := hd
    intro pairs h
    simp only [assembleAll] at h
    cases hsb : streamBatch d1 N start e swe ns with
    | none => simp only [hsb] at h; exact Option.noConfusion h
    | some mb =>
      cases har : assembleAll N start e swe ns rest with
      | none => simp only [hsb, har] at h; exact Option.noConfusion h
      | some tail =>
        simp only [hsb, har, Option.some.injEq] at h
        subst h
        obtain ⟨hlen, hidx⟩ := ih tail har
        refine ⟨by simp [hlen], ?_⟩
        intro i hd hp
        cases i with
        | zero => exact ⟨rfl, hsb⟩
        | succ i =>
          exact hidx i (by simpa using hd) (by simpa using hp)

/-- Every entry of an assembled result carries the shared num_seq and
sweep_end values. -/
theorem assembleAll_mem (N start e : Nat) (swe : Bool) (ns : Nat)
    (dg : List (String × Dataset)) (pairs : List (String × MinibatchData))
    (h : assembleAll N start e swe ns dg = some pairs) :
    ∀ p, p ∈ pairs → p.2.num_seq = ns ∧ p.2.sweep_end = swe := by
  intro p hp
  obtain ⟨hlen, hidx⟩ := assembleAll_spec N start e swe ns dg pairs h
  obtain ⟨⟨i, hi⟩, rfl⟩ := List.mem_iff_get.mp hp
  obtain ⟨_, hsb⟩ := hidx i (by omega) hi
  obtain ⟨h1, h2, _, _⟩ := streamBatch_spec _ N start e swe ns _ hsb
  exact ⟨h1, h2⟩

/-- The reshape loop over the records of a sequence stream accumulates the
sum of the per-record seq_len values and keeps one entry per record. -/
theorem reshapeAll_sum (es : Nat) :
    ∀ (bs : List (List Int)) (res : List (List (List Int))) (sc : Nat),
      reshapeAll es bs = some (res, sc) →
      sc = (bs.map (fun b => b.length / es)).sum ∧ res.length = bs.length := by
  intro bs
  induction bs with
  | nil =>
    intro res sc h
    simp only [reshapeAll, Option.some.injEq, Prod.mk.injEq] at h
    obtain ⟨h1, h2⟩ := h
    subst h1; subst h2
    exact ⟨rfl, rfl⟩
  | cons b rest ih =>
    intro res sc h
    simp only [reshapeAll] at h
    cases hr1 : npReshape (b.length / es) es b with
    | none => simp only [hr1] at h; exact Option.noConfusion h
    | some r =>
      cases hr2 : reshapeAll es rest with
      | none => simp only [hr1, hr2] at h; exact Option.noConfusion h
      | some p =>
        obtain ⟨rs, sc2⟩ := p
        simp only [hr1, hr2, Option.some.injEq, Prod.mk.injEq] at h
        obtain ⟨h1, h2⟩ := h
        subst h1; subst h2
        obtain ⟨hs, hl⟩ := ih rs sc2 hr2
        subst hs
        simp [hl]

/-- chunksN always yields exactly its requested number of rows. -/
theorem chunksN_length (es : Nat) :
    ∀ (k : Nat) (b : List Int), (chunksN es k b).length = k := by
  intro k
  induction k with
  | zero => intro b; rfl
  | succ k ih => intro b; simp [chunksN, ih]

/-- Row j of chunksN is the j-th consecutive es-sized slice of the block. -/
theorem chunksN_get (es : Nat) :
    ∀ (k : Nat) (b : List Int) (j : Nat), j < k →
      (chunksN es k b).get? j = some ((b.drop (j * es)).take es) := by
  intro k
  induction k with
  | zero => intro b j hj; exact absurd hj (Nat.not_lt_zero j)
  | succ k ih =>
    intro b j hj
    cases j with
    | zero => simp [chunksN]
    | succ j =>
      simp only [chunksN, List.get?_cons_succ]
      rw [ih (b.drop es) j (by omega), List.drop_drop]
      rw [Nat.succ_mul, Nat.add_comm (j * es) es]

/-- When the block length matches, the rows of chunksN concatenate back to
the original block. -/
theorem chunksN_join (es : Nat) :
    ∀ (k : Nat) (b : List Int), b.length = k * es → (chunksN es k b).flatten = b := by
  intro k
  induction k with
  | zero =>
    intro b hb
    rw [Nat.zero_mul] at hb
    rw [List.length_eq_zero.mp hb]
    rfl
  | succ k ih =>
    intro b hb
    have hdl : (b.drop es).length = k * es := by
      rw [List.length_drop, hb, Nat.succ_mul]; omega
    simp only [chunksN, List.flatten_cons]
    rw [ih (b.drop es) hdl]
    exact List.take_append_drop es b

/-- A datagroup containing a declared sequence dataset with a missing shape
or dtype attribute makes the constructor loop fail with the schema error,
whatever the enumeration index. -/
theorem buildStreamInfos_error :
    ∀ (dg : List (String × Dataset)) (i : Nat) (name : String) (d : Dataset),
      (name, d) ∈ dg → isSeq d = true →
      (d.attrs.shape = none ∨ d.attrs.dtype = none) →
      buildStreamInfos i dg = Except.error InitError.schemaError := by
  intro dg
  induction dg with
  | nil =>
    intro i name d hmem
    exact absurd hmem (List.not_mem_nil _)
  | cons hd rest ih =>
    obtain ⟨name1, d1⟩ := hd
    intro i name d hmem hseq hmiss
    rcases List.mem_cons.mp hmem with heq | hmemr
    · rw [Prod.mk.injEq] at heq
      obtain ⟨rfl, rfl⟩ := heq
      simp only [buildStreamInfos]
      rw [if_pos hseq]
      rcases hmiss with hsh | hdt
      · simp [dataset_shape_, hsh]
      · cases hsh : d.attrs.shape with
        | none => simp [dataset_shape_, hsh]
        | some sh => simp [dataset_shape_, hsh, hdt]
    · have hrest := ih (i + 1) name d hmemr hseq hmiss
      simp only [buildStreamInfos]
      by_cases hseq1 : isSeq d1 = true
      · rw [if_pos hseq1]
        cases hsh1 : dataset_shape_ d1 with
        | none => simp
        | some sh1 =>
          cases hdt1 : d1.attrs.dtype with
          | none => simp
          | some dt1 => simp [hrest]
      · rw [if_neg hseq1]
        simp [hrest]

/-- Inversion of next_minibatch: a successful call is exactly a finished
selection loop followed by the cursor write and a successful result loop. -/
theorem next_minibatch_inv (src : Source) (fuel : Nat) (n : Int) (w r : Nat)
    (pairs : List (String × MinibatchData)) (src2 : Source)
    (h : next_minibatch src fuel n w r = some (pairs, src2)) :
    ∃ e sc ns,
      selectLoop src n fuel src.next_idx 0 0 = LoopRes.done e sc ns ∧
      src2 = setNextIdx src e ∧
      assembleAll src.num_data_points src.next_idx e
        (if e > src.next_idx then false else true) ns src.datagroup = some pairs := by
  simp only [next_minibatch] at h
  cases hsel : selectLoop src n fuel src.next_idx 0 0 with
  | outOfFuel => simp only [hsel] at h; exact Option.noConfusion h
  | keyError => simp only [hsel] at h; exact Option.noConfusion h
  | done e sc ns =>
    simp only [hsel] at h
    cases hasm : assembleAll src.num_data_points src.next_idx e
        (if e > src.next_idx then false else true) ns src.datagroup with
    | none => simp only [hasm] at h; exact Option.noConfusion h
    | some ps =>
      simp only [hasm, Option.some.injEq, Prod.mk.injEq] at h
      obtain ⟨h1, h2⟩ := h
      exact ⟨e, sc, ns, rfl, h2.symm, by rw [hasm, h1]⟩

/-- C10: next_minibatch ignores number_of_workers and worker_rank: two calls
from the same state and dataset with the same budget and fuel, differing only
in the worker arguments, return identical results - same selected range,
same per-stream record and sample counts, same sweep_end flag, same cursor. -/
theorem C10_worker_args_no_effect (src : Source) (fuel : Nat) (n : Int)
    (w1 r1 w2 r2 : Nat) :
    next_minibatch src fuel n w1 r1 = next_minibatch src fuel n w2 r2 := rfl

/-- C7: construction fails with the schema error when any dataset declared as
a sequence lacks the shape or the dtype attribute. The failure happens inside
H5DataSource.init, at catalog-build time: no Source value is produced, so no
batch can be requested. -/
theorem C7_schema_error (dg : List (String × Dataset)) (name : String)
    (d : Dataset) (hmem : (name, d) ∈ dg) (hseq : isSeq d = true)
    (hmiss : d.attrs.shape = none ∨ d.attrs.dtype = none) :
    H5DataSource.init dg = Except.error InitError.schemaError := by
  rw [H5DataSource.init]
  simp [buildStreamInfos_error dg 0 name d hmem hseq hmiss]

/-- Witness for C7: one declared sequence dataset missing its shape
attribute makes construction fail with the schema error. -/
theorem C7_schema_error_witness :
    H5DataSource.init [("s", dsNoShape)] = Except.error InitError.schemaError :=
  C7_schema_error [("s", dsNoShape)] "s" dsNoShape (by simp) (by decide)
    (Or.inl rfl)

/-- C6: reshape round trip. For a sequence record whose flat block has length
k * es with positive element size es, the reshaper as called at batch
assembly (seq_len computed by floor division) yields exactly k elements, the
j-th being the j-th consecutive es-sized slice of the block (row-major), and
the elements concatenate back to the original block. -/
theorem C6_reshape_round_trip (b : List Int) (k es : Nat)
    (hes : 0 < es) (hlen : b.length = k * es) :
    npReshape (b.length / es) es b = some (chunksN es k b) ∧
    (chunksN es k b).length = k ∧
    (∀ j, j < k → (chunksN es k b).get? j = some ((b.drop (j * es)).take es)) ∧
    (chunksN es k b).flatten = b := by
  have hk : b.length / es = k := by rw [hlen, Nat.mul_div_cancel _ hes]
  refine ⟨?_, chunksN_length es k b, fun j hj => chunksN_get es k b j hj,
    chunksN_join es k b hlen⟩
  rw [hk, npReshape, if_pos hlen]

/-- Witness for C6 at a concrete block: 6 values, 3 elements of size 2. -/
theorem C6_reshape_round_trip_witness :
    npReshape 3 2 bSix = some [[1, 2], [3, 4], [5, 6]] ∧
    (chunksN 2 3 bSix).get? 1 = some [3, 4] ∧
    (chunksN 2 3 bSix).flatten = bSix := by
  obtain ⟨h1, _, h3, h4⟩ := C6_reshape_round_trip bSix 3 2 (by decide) (by decide)
  exact ⟨h1.trans (by decide), (h3 1 (by decide)).trans (by decide), h4⟩

/-- C5 counterexample: dsBad declares element size 2 but its record is a flat
block of 5 values. 5 is not a multiple of 2, yet computing the sample count
returns the floored value 2 - no error of any kind is raised. -/
theorem C5_counterexample :
    sample_count_ dsBad 0 = some 2 ∧ 5 % 2 ≠ 0 := by decide

/-- C5 (amended): computing the sample count of a record never raises: for a
sequence stream with a declared shape it returns the floor of
len(block) / product(element_shape) - the exact quotient when the division is
exact - and 1 for a non-sequence stream. The non-multiple case instead fails
at batch assembly: np.reshape of the record rejects the block exactly when
its length is not a multiple of the element size. -/
theorem C5_sample_count_floor (d : Dataset) (i : Nat) (sh : AttrShape)
    (block : List Int) (hseq : isSeq d = true)
    (hsh : d.attrs.shape = some sh) (hblock : d.records.get? i = some block) :
    sample_count_ d i = some (block.length / prodShape sh) ∧
    (prodShape sh ∣ block.length →
      (block.length / prodShape sh) * prodShape sh = block.length) ∧
    (npReshape (block.length / prodShape sh) (prodShape sh) block = none
      ↔ ¬ prodShape sh ∣ block.length) ∧
    (∀ d2 : Dataset, ∀ j : Nat, isSeq d2 = false → sample_count_ d2 j = some 1) := by
  have hblock2 : d.records[i]? = some block := by
    rw [← List.get?_eq_getElem?]
    exact hblock
  refine ⟨?_, ?_, ?_, ?_⟩
  · simp [sample_count_, hseq, hsh, hblock2]
  · intro hdvd
    exact Nat.div_mul_cancel hdvd
  · constructor
    · intro hnone hdvd
      have hc : block.length = (block.length / prodShape sh) * prodShape sh :=
        (Nat.div_mul_cancel hdvd).symm
      rw [npReshape, if_pos hc] at hnone
      exact Option.noConfusion hnone
    · intro hndvd
      have hc : ¬ block.length = (block.length / prodShape sh) * prodShape sh := by
        intro hc
        refine hndvd ⟨block.length / prodShape sh, ?_⟩
        conv_lhs => rw [hc]
        exact Nat.mul_comm _ _
      rw [npReshape, if_neg hc]
  · intro d2 j hf
    simp [sample_count_, hf]

/-- Witness for C5 at dsBad: the sample count is the floored 2, and the
batch-assembly reshape of the same record fails. -/
theorem C5_sample_count_floor_witness :
    sample_count_ dsBad 0 = some 2 ∧
    npReshape 2 2 [(1 : Int), 2, 3, 4, 5] = none := by
  obtain ⟨h1, _, h3, _⟩ := C5_sample_count_floor dsBad 0 (AttrShape.arr [2])
    [1, 2, 3, 4, 5] (by decide) rfl rfl
  exact ⟨h1, h3.mpr (by decide)⟩

/-- C1 counterexample: on a dense two-record source with budget 2 the loop
stops with the accumulated total exactly equal to the requested budget
(2 = 2), so it does stop while the total is merely equal - the
strictly-greater stopping rule of the frozen claim is false. -/
theorem C1_counterexample : ¬ stopsStrictlyOver exSrcDense 2 10 := by
  intro h
  have h2 := h 0 2 2 (by decide)
  omega

/-- C1 (amended): for every positive budget, a finished selection loop
started at the cursor has consumed at least one record, its exit total is the
accumulated max-per-stream sample count of the consumed records, and it
stopped the first time the accumulated total reached the budget (greater
than or equal): every strictly shorter prefix of the walk accumulates
strictly less than the budget. The loop may stop with the total exactly
equal to the budget. -/
theorem C1_stops_first_time_at_least (src : Source) (n : Int) (fuel : Nat)
    (hstart : src.next_idx < src.num_data_points) (hn : 0 < n)
    (e2 : Nat) (sc2 : Int) (ns2 : Nat)
    (h : selectLoop src n fuel src.next_idx 0 0 = LoopRes.done e2 sc2 ns2) :
    1 ≤ ns2 ∧
    totUpTo src src.next_idx ns2 = some sc2 ∧
    n ≤ sc2 ∧
    ∀ j, j < ns2 → ∃ tj, totUpTo src src.next_idx j = some tj ∧ tj < n := by
  obtain ⟨h1, h2, h3, h4⟩ := selectLoop_init_spec src n fuel hstart e2 sc2 ns2 h
  refine ⟨?_, h1, h3, h4⟩
  rcases Nat.eq_zero_or_pos ns2 with hz | hp
  · subst hz
    simp only [totUpTo, Option.some.injEq] at h1
    omega
  · exact hp

/-- Witness for the amended C1 on the dense two-record source with budget 2:
the finished loop consumed 2 records and its accumulated total is 2 ≥ 2. -/
theorem C1_stops_first_time_witness :
    1 ≤ 2 ∧ totUpTo exSrcDense 0 2 = some 2 ∧ (2 : Int) ≤ 2 := by
  obtain ⟨h1, h2, h3, _⟩ := C1_stops_first_time_at_least exSrcDense 2 10
    (by decide) (by decide) 0 2 2 (by decide)
  exact ⟨h1, h2, h3⟩

/-- C8: termination of the selection loop, with the cursor in range (which
also gives record_count at least 1). First part: if every record in range has
a max-per-stream sample count of at least 1, the loop finishes for any
budget once the fuel exceeds the budget. Second part: if the budget is
positive and every record in range has a max-per-stream sample count of 0,
the loop never finishes - it exhausts any amount of fuel. -/
theorem C8_loop_termination (src : Source) (n : Int) (start : Nat)
    (hstart : start < src.num_data_points) :
    ((∀ i, i < src.num_data_points → 1 ≤ (max_seq_len_ src i).getD 0) →
      ∀ fuel, n.toNat < fuel →
        ∃ e2 sc2 ns2, selectLoop src n fuel start 0 0 = LoopRes.done e2 sc2 ns2) ∧
    (0 < n → (∀ i, i < src.num_data_points → max_seq_len_ src i = some 0) →
      ∀ fuel, selectLoop src n fuel start 0 0 = LoopRes.outOfFuel) := by
  constructor
  · intro hpos fuel hfuel
    refine selectLoop_terminates src n hpos fuel start 0 0 hstart ?_
    simpa using hfuel
  · intro hn hzero fuel
    exact selectLoop_stuck src n hzero fuel start 0 0 hstart (by omega)

/-- Witness for C8: on the dense source the loop with budget 2 finishes
within fuel 5; on the zero-contribution source the loop with budget 1 runs
out of fuel 5. -/
theorem C8_loop_termination_witness :
    (∃ e2 sc2 ns2, selectLoop exSrcDense 2 5 0 0 0 = LoopRes.done e2 sc2 ns2) ∧
    selectLoop exSrcZero 1 5 0 0 0 = LoopRes.outOfFuel := by
  constructor
  · exact (C8_loop_termination exSrcDense 2 0 (by decide)).1 (by decide) 5 (by decide)
  · exact (C8_loop_termination exSrcZero 1 0 (by decide)).2 (by decide) (by decide) 5

/-- C9: a request with budget ≤ 0 runs the loop body zero times: the loop
returns immediately with end = start, total 0 and zero records; the cursor
is unchanged, every stream reports sweep_end true and zero records in batch,
and the wrap branch taken at end = start extracts, for any dataset holding
num_data_points records, the entire dataset: records [start, N) followed by
records [0, start). -/
theorem C9_zero_request (src : Source) (fuel : Nat) (n : Int) (w r : Nat)
    (hn : n ≤ 0) :
    selectLoop src n (fuel + 1) src.next_idx 0 0
      = LoopRes.done src.next_idx 0 0 ∧
    (∀ pairs src2, next_minibatch src (fuel + 1) n w r = some (pairs, src2) →
      src2.next_idx = src.next_idx ∧
      ∀ p, p ∈ pairs → p.2.sweep_end = true ∧ p.2.num_seq = 0) ∧
    (∀ d : Dataset, d.records.length = src.num_data_points →
      extractData d src.num_data_points src.next_idx src.next_idx true
        = d.records.drop src.next_idx ++ d.records.take src.next_idx) := by
  have hloop : selectLoop src n (fuel + 1) src.next_idx 0 0
      = LoopRes.done src.next_idx 0 0 := by
    rw [selectLoop, if_neg (by omega)]
  refine ⟨hloop, ?_, ?_⟩
  · intro pairs src2 h
    obtain ⟨e, sc, ns, hsel, hsrc2, hasm⟩ :=
      next_minibatch_inv src (fuel + 1) n w r pairs src2 h
    rw [hloop] at hsel
    simp only [LoopRes.done.injEq] at hsel
    obtain ⟨he, hsc, hns⟩ := hsel
    subst he; subst hns
    have hswe : (if src.next_idx > src.next_idx then false else true) = true := by
      simp
    rw [hswe] at hasm
    constructor
    · rw [hsrc2]; rfl
    · intro p hp
      obtain ⟨h1, h2⟩ := assembleAll_mem _ _ _ _ _ _ _ hasm p hp
      exact ⟨h2, h1⟩
  · intro d hlen
    rw [extractData, if_pos rfl, ← hlen, List.take_length]

/-- Witness for C9 on a three-record dense source with cursor 1 and budget
0: the loop returns immediately and the full-rotation extraction holds. -/
theorem C9_zero_request_witness :
    selectLoop exSrcDense3 0 4 exSrcDense3.next_idx 0 0
      = LoopRes.done exSrcDense3.next_idx 0 0 ∧
    (∀ pairs src2, next_minibatch exSrcDense3 4 0 1 0 = some (pairs, src2) →
      src2.next_idx = exSrcDense3.next_idx ∧
      ∀ p, p ∈ pairs → p.2.sweep_end = true ∧ p.2.num_seq = 0) ∧
    (∀ d : Dataset, d.records.length = exSrcDense3.num_data_points →
      extractData d exSrcDense3.num_data_points exSrcDense3.next_idx
        exSrcDense3.next_idx true
        = d.records.drop exSrcDense3.next_idx
          ++ d.records.take exSrcDense3.next_idx) :=
  C9_zero_request exSrcDense3 3 0 1 0 (by decide)

/-- C4 counterexample: at budget 0 the call returns, consumes zero records
and leaves the cursor where it was, so the claim that every call, for every
requested sample count, consumes at least one record is false. -/
theorem C4_counterexample :
    next_minibatch exSrcDense 10 0 1 0
      = some ([("x", ⟨BatchData.dense [[0], [1]], 0, 0, true⟩)], exSrcDense) := by
  decide

/-- C4 (amended): for every positive budget, a returning call consumes at
least one record: the shared num_seq of every stream descriptor is at least
1 and the new cursor is the start advanced by num_seq modulo the record
count. At budget ≤ 0 the cursor does not move (see the counterexample). -/
theorem C4_cursor_advances (src : Source) (fuel : Nat) (n : Int) (w r : Nat)
    (pairs : List (String × MinibatchData)) (src2 : Source)
    (hstart : src.next_idx < src.num_data_points) (hn : 0 < n)
    (h : next_minibatch src fuel n w r = some (pairs, src2)) :
    ∃ ns, 1 ≤ ns ∧
      src2.next_idx = (src.next_idx + ns) % src.num_data_points ∧
      ∀ p, p ∈ pairs → p.2.num_seq = ns := by
  obtain ⟨e, sc, ns, hsel, hsrc2, hasm⟩ :=
    next_minibatch_inv src fuel n w r pairs src2 h
  obtain ⟨h1, h2, h3, h4⟩ := selectLoop_init_spec src n fuel hstart e sc ns hsel
  refine ⟨ns, ?_, ?_, ?_⟩
  · rcases Nat.eq_zero_or_pos ns with hz | hp
    · subst hz
      simp only [totUpTo, Option.some.injEq] at h1
      omega
    · exact hp
  · rw [hsrc2, h2]
    rfl
  · intro p hp
    exact (assembleAll_mem _ _ _ _ _ _ _ hasm p hp).1

/-- Witness for the amended C4 on the mixed source with budget 2: the call
returns with two records consumed and the cursor moved from 0 to 2. -/
theorem C4_cursor_advances_witness :
    ∃ ns, 1 ≤ ns ∧
      (setNextIdx exSrcMix 2).next_idx
        = (exSrcMix.next_idx + ns) % exSrcMix.num_data_points ∧
      ∀ p, p ∈ pairsMix → p.2.num_seq = ns :=
  C4_cursor_advances exSrcMix 10 2 1 0 pairsMix (setNextIdx exSrcMix 2)
    (by decide) (by decide) (by decide)

/-- C2: the sweep_end flag reported to every stream is true exactly when the
final pointer position end is at most the start position, and the extraction
used for every stream behaves per branch: the wrap branch concatenates
records [start, N) with records [0, end), the plain branch is the contiguous
slice [start, end). -/
theorem C2_sweep_end_iff (src : Source) (fuel : Nat) (n : Int) (w r : Nat)
    (pairs : List (String × MinibatchData)) (src2 : Source)
    (h : next_minibatch src fuel n w r = some (pairs, src2)) :
    ∃ e sc ns,
      selectLoop src n fuel src.next_idx 0 0 = LoopRes.done e sc ns ∧
      (∀ p, p ∈ pairs → (p.2.sweep_end = true ↔ e ≤ src.next_idx)) ∧
      (∀ d : Dataset, d.records.length = src.num_data_points →
        extractData d src.num_data_points src.next_idx e true
          = d.records.drop src.next_idx ++ d.records.take e ∧
        extractData d src.num_data_points src.next_idx e false
          = (d.records.take e).drop src.next_idx) := by
  obtain ⟨e, sc, ns, hsel, hsrc2, hasm⟩ :=
    next_minibatch_inv src fuel n w r pairs src2 h
  refine ⟨e, sc, ns, hsel, ?_, ?_⟩
  · intro p hp
    have hswe := (assembleAll_mem _ _ _ _ _ _ _ hasm p hp).2
    rw [hswe]
    rcases Nat.lt_or_ge src.next_idx e with hgt | hge
    · rw [if_pos hgt]
      constructor
      · intro hf
        exact absurd hf (by simp)
      · intro hle
        exact absurd hle (Nat.not_le.mpr hgt)
    · rw [if_neg (by omega)]
      exact ⟨fun _ => hge, fun _ => rfl⟩
  · intro d hlen
    constructor
    · rw [extractData, if_pos rfl, ← hlen, List.take_length]
    · rw [extractData, if_neg (by simp)]

/-- Witness for C2 on the dense source with budget 2: the loop finishes and
the sweep flag of the returned descriptor matches end ≤ start. -/
theorem C2_sweep_end_iff_witness :
    ∃ e sc ns,
      selectLoop exSrcDense 2 10 exSrcDense.next_idx 0 0 = LoopRes.done e sc ns ∧
      ∀ p, p ∈ pairsDense2 → (p.2.sweep_end = true ↔ e ≤ exSrcDense.next_idx) := by
  obtain ⟨e, sc, ns, h1, h2, _⟩ := C2_sweep_end_iff exSrcDense 10 2 1 0 pairsDense2
    (setNextIdx exSrcDense 0) (by decide)
  exact ⟨e, sc, ns, h1, h2⟩

/-- C3: cross-stream alignment. A returning call selects one shared record
range: the result pairs up with the datagroup position by position; every
descriptor carries the same num_seq and the same sweep_end flag; every
data of every stream is built by extractData from the same start, end and wrap
flag; the sample count of a sequence stream is the sum of seq_len over its
extracted records, and that of a dense stream equals the shared record
count. -/
theorem C3_stream_alignment (src : Source) (fuel : Nat) (n : Int) (w r : Nat)
    (pairs : List (String × MinibatchData)) (src2 : Source)
    (h : next_minibatch src fuel n w r = some (pairs, src2)) :
    ∃ e sc ns,
      selectLoop src n fuel src.next_idx 0 0 = LoopRes.done e sc ns ∧
      pairs.length = src.datagroup.length ∧
      ∀ i (hd : i < src.datagroup.length) (hp : i < pairs.length),
        (pairs.get ⟨i, hp⟩).1 = (src.datagroup.get ⟨i, hd⟩).1 ∧
        (pairs.get ⟨i, hp⟩).2.num_seq = ns ∧
        (pairs.get ⟨i, hp⟩).2.sweep_end
          = (if e > src.next_idx then false else true) ∧
        (isSeq (src.datagroup.get ⟨i, hd⟩).2 = true →
          ∃ sh res,
            (src.datagroup.get ⟨i, hd⟩).2.attrs.shape = some sh ∧
            (pairs.get ⟨i, hp⟩).2.data = BatchData.seqData res ∧
            reshapeAll (prodShape sh)
              (extractData (src.datagroup.get ⟨i, hd⟩).2 src.num_data_points
                src.next_idx e (if e > src.next_idx then false else true))
              = some (res, (pairs.get ⟨i, hp⟩).2.sample_count) ∧
            (pairs.get ⟨i, hp⟩).2.sample_count
              = ((extractData (src.datagroup.get ⟨i, hd⟩).2 src.num_data_points
                  src.next_idx e (if e > src.next_idx then false else true)).map
                  (fun b => b.length / prodShape sh)).sum) ∧
        (isSeq (src.datagroup.get ⟨i, hd⟩).2 = false →
          (pairs.get ⟨i, hp⟩).2.data
            = BatchData.dense (extractData (src.datagroup.get ⟨i, hd⟩).2
                src.num_data_points src.next_idx e
                (if e > src.next_idx then false else true)) ∧
          (pairs.get ⟨i, hp⟩).2.sample_count = ns) := by
  obtain ⟨e, sc, ns, hsel, hsrc2, hasm⟩ :=
    next_minibatch_inv src fuel n w r pairs src2 h
  obtain ⟨hlen, hidx⟩ := assembleAll_spec _ _ _ _ _ _ _ hasm
  refine ⟨e, sc, ns, hsel, hlen, ?_⟩
  intro i hd hp
  obtain ⟨hname, hsb⟩ := hidx i hd hp
  obtain ⟨h1, h2, h3, h4⟩ := streamBatch_spec _ _ _ _ _ _ _ hsb
  refine ⟨hname, h1, h2, ?_, h4⟩
  intro hseq
  obtain ⟨sh, res, hsh, hres, hdata⟩ := h3 hseq
  refine ⟨sh, res, hsh, hdata, hres, ?_⟩
  exact (reshapeAll_sum _ _ _ _ hres).1

/-- Witness for C3 on the mixed two-stream source with budget 2: the call
returns and the result list is aligned with the datagroup. -/
theorem C3_stream_alignment_witness :
    ∃ e sc ns,
      selectLoop exSrcMix 2 10 exSrcMix.next_idx 0 0 = LoopRes.done e sc ns ∧
      pairsMix.length = exSrcMix.datagroup.length := by
  obtain ⟨e, sc, ns, h1, h2, _⟩ := C3_stream_alignment exSrcMix 10 2 1 0 pairsMix
    (setNextIdx exSrcMix 2) (by decide)
  exact ⟨e, sc, ns, h1, h2⟩

end H5Reader
